import Mathlib

/-!
Verification of the AgenticScript runtime core: a shallow embedding of the
message bus (`runtime/message_bus.py`), the tool registry
(`runtime/tool_registry.py`), the agent entity and the tree-walking
interpreter (`core/interpreter.py`), together with proofs of the spec's
testable properties.

Modelling conventions:
* The Python code is single-threaded from the point of view of every claim
  proved here (the interpreter executes statements strictly in program
  order); locks are therefore not modelled and each operation is a pure
  state transformer.
* Wall-clock values (`datetime.now()`) are modelled by an explicit `now`
  tick passed to the operations that stamp times; fields that only record
  creation/delivery instants and are not mentioned by any proved property
  are omitted from the record types.
* Python dictionaries keyed by strings are modelled as functions
  `String → Option _` updated pointwise.
* `queue.PriorityQueue` is a thin lock wrapper around the `heapq` module;
  its `_put`/`_get` are `heapq.heappush`/`heapq.heappop` on a plain list.
  The functions below are a direct translation of CPython's
  `heapq.heappush`, `heapq.heappop`, `heapq._siftdown` and `heapq._siftup`.
-/

namespace AgenticScript

/-! ## CPython `heapq` on lists -/

/-- CPython `heapq._siftdown(heap, startpos, pos)`: `newitem` has been
placed (conceptually) at `pos`; bubble it towards the root while it is
`lt` its parent.  The loop carries `newitem` and only writes it into the
list at the end, exactly as the Python source does. -/
def siftdownAux (lt : α → α → Bool) (newitem : α) (startpos : Nat) :
    List α → Nat → List α
  | heap, pos =>
    if h : startpos < pos then
      let parentpos := (pos - 1) / 2
      match heap.get? parentpos with
      | some parent =>
        if lt newitem parent then
          siftdownAux lt newitem startpos (heap.set pos parent) parentpos
        else
          heap.set pos newitem
      | none => heap.set pos newitem
    else
      heap.set pos newitem
termination_by heap pos => pos
decreasing_by
  have hle : (pos - 1) / 2 ≤ pos - 1 := Nat.div_le_self _ _
  omega

/-- CPython `heapq._siftup(heap, pos)` main loop: follow the path of the
smaller child to a leaf, moving children up; returns the final list and
the leaf position where `newitem` was written. -/
def siftupAux (lt : α → α → Bool) (endpos : Nat) (newitem : α) :
    List α → Nat → List α × Nat
  | heap, pos =>
    let childpos := 2 * pos + 1
    if h : childpos < endpos then
      let rightpos := childpos + 1
      let c :=
        if rightpos < endpos ∧
            ¬ lt (heap.getD childpos newitem) (heap.getD rightpos newitem) = true
        then rightpos else childpos
      siftupAux lt endpos newitem (heap.set pos (heap.getD c newitem)) c
    else
      (heap.set pos newitem, pos)
termination_by heap pos => endpos - pos
decreasing_by
  show endpos - _ < endpos - pos
  split <;> omega

/-- CPython `heapq._siftup(heap, pos)`: read `newitem := heap[pos]`, run the
leaf-chasing loop, then `_siftdown` from the resulting leaf. -/
def siftup (lt : α → α → Bool) (heap : List α) (pos : Nat) : List α :=
  match heap.get? pos with
  | none => heap
  | some newitem =>
    match siftupAux lt heap.length newitem heap pos with
    | (h2, finalpos) => siftdownAux lt newitem pos h2 finalpos

/-- CPython `heapq.heappush(heap, item)`. -/
def heappush (lt : α → α → Bool) (heap : List α) (item : α) : List α :=
  siftdownAux lt item 0 (heap ++ [item]) heap.length

/-- CPython `heapq.heappop(heap)`; `none` when the heap is empty (Python
raises `IndexError`, which `Queue.get_nowait` prevents by checking
`_qsize()` first). -/
def heappop (lt : α → α → Bool) (heap : List α) : Option (α × List α) :=
  match heap.getLast? with
  | none => none
  | some lastelt =>
    let rest := heap.dropLast
    if rest.isEmpty then some (lastelt, [])
    else some (rest.getD 0 lastelt, siftup lt (rest.set 0 lastelt) 0)

/-! ## `runtime/message_bus.py` data model -/

/-- `MessagePriority` enum. -/
inductive MessagePriority
  | LOW
  | NORMAL
  | HIGH
  | URGENT
deriving DecidableEq, Repr

/-- The `.value` of each `MessagePriority` enum member. -/
def MessagePriority.value : MessagePriority → Nat
  | .LOW => 1
  | .NORMAL => 2
  | .HIGH => 3
  | .URGENT => 4

/-- `MessageStatus` enum. -/
inductive MessageStatus
  | PENDING
  | DELIVERED
  | FAILED
  | TIMEOUT
deriving DecidableEq, Repr

/-- `Message` dataclass.  The source formats the id as
`f"msg_{counter:06d}"`, a strictly monotone injection of the numeric
counter; the model keeps the counter itself.  `created_at`/`delivered_at`
timestamps and the open `metadata` map are omitted (no proved property
mentions them). -/
structure Message where
  id : Nat
  sender : String
  recipient : String
  content : String
  message_type : String
  priority : MessagePriority
  timeout : Option Nat
  status : MessageStatus
  response_to : Option Nat
deriving DecidableEq, Repr

/-- `Message.__lt__`: "Higher priority values should come first (lower in
queue)", i.e. `self.priority.value > other.priority.value`. -/
def Message.ltb (self other : Message) : Bool :=
  decide (other.priority.value < self.priority.value)

/-- `MessageBus` state.  `_subscribers` and the delivery-time window are
omitted: the subscriber map has the same key set as `_queues` at all times
and no proved property mentions subscriptions or the rolling average. -/
structure MessageBus where
  max_queue_size : Nat
  queues : String → Option (List Message)
  history : List Message
  total_sent : Nat
  total_delivered : Nat
  total_timeout : Nat
  message_counter : Nat

/-- `MessageBus(max_queue_size)` constructor. -/
def MessageBus.init (max_queue_size : Nat) : MessageBus :=
  { max_queue_size := max_queue_size
    queues := fun _ => none
    history := []
    total_sent := 0
    total_delivered := 0
    total_timeout := 0
    message_counter := 0 }

/-- `MessageBus.register_agent`. -/
def MessageBus.register_agent (bus : MessageBus) (agent_id : String) :
    Bool × MessageBus :=
  match bus.queues agent_id with
  | some _ => (false, bus)
  | none =>
    (true, { bus with
      queues := fun k => if k = agent_id then some [] else bus.queues k })

/-- `MessageBus.unregister_agent` (draining the queue and deleting the key
amount to deleting the key in the functional model). -/
def MessageBus.unregister_agent (bus : MessageBus) (agent_id : String) :
    Bool × MessageBus :=
  match bus.queues agent_id with
  | none => (false, bus)
  | some _ =>
    (true, { bus with
      queues := fun k => if k = agent_id then none else bus.queues k })

/-- `queue.PriorityQueue.put_nowait` raises `Full` exactly when
`maxsize > 0` and `qsize() >= maxsize`. -/
def queueFull (max_queue_size : Nat) (q : List Message) : Prop :=
  0 < max_queue_size ∧ max_queue_size ≤ q.length

instance (m : Nat) (q : List Message) : Decidable (queueFull m q) := by
  unfold queueFull; infer_instance

/-- `MessageBus.send_message`.  The counter is incremented and the
`Message` built before `put_nowait` is attempted, so a `Full` failure
still advances the counter but records nothing. -/
def MessageBus.send_message (bus : MessageBus) (sender recipient content
    message_type : String) (priority : MessagePriority)
    (timeout : Option Nat) (response_to : Option Nat) :
    Option Nat × MessageBus :=
  match bus.queues recipient with
  | none => (none, bus)
  | some q =>
    let counter := bus.message_counter + 1
    let m : Message :=
      { id := counter
        sender := sender
        recipient := recipient
        content := content
        message_type := message_type
        priority := priority
        timeout := timeout
        status := MessageStatus.PENDING
        response_to := response_to }
    if queueFull bus.max_queue_size q then
      (none, { bus with message_counter := counter })
    else
      (some counter,
        { bus with
          message_counter := counter
          queues := fun k =>
            if k = recipient then some (heappush Message.ltb q m)
            else bus.queues k
          history := bus.history ++ [m]
          total_sent := bus.total_sent + 1 })

/-- `MessageBus.receive_message` (the non-blocking path: in the
single-threaded model a `get` with a timeout on an empty queue also
returns `None`).  The source mutates the popped `Message` in place, so the
history alias also flips to DELIVERED; the model returns the updated copy
and no proved property reads the status of a delivered message out of
history. -/
def MessageBus.receive_message (bus : MessageBus) (agent_id : String) :
    Option Message × MessageBus :=
  match bus.queues agent_id with
  | none => (none, bus)
  | some q =>
    match heappop Message.ltb q with
    | none => (none, bus)
    | some (m, q2) =>
      (some { m with status := MessageStatus.DELIVERED },
        { bus with
          queues := fun k => if k = agent_id then some q2 else bus.queues k
          total_delivered := bus.total_delivered + 1 })

/-- `MessageBus.get_pending_count`: queue size, `-1` when unregistered. -/
def MessageBus.get_pending_count (bus : MessageBus) (agent_id : String) :
    Int :=
  match bus.queues agent_id with
  | none => -1
  | some q => (q.length : Int)

/-! ## Small-shape evaluation lemmas for the heap operations

`heappush`/`heappop` are defined by well-founded recursion, so concrete
runs are evaluated through these propositional equations rather than by
kernel reduction. -/

theorem heappush_nil (lt : α → α → Bool) (x : α) : heappush lt [] x = [x] := by
  simp [heappush, siftdownAux]

theorem heappush_one (lt : α → α → Bool) (a x : α) :
    heappush lt [a] x = if lt x a then [x, a] else [a, x] := by
  by_cases h : lt x a <;>
    simp [heappush, siftdownAux, h]

theorem heappush_two (lt : α → α → Bool) (a b x : α) :
    heappush lt [a, b] x = if lt x a then [x, b, a] else [a, b, x] := by
  by_cases h : lt x a <;>
    simp [heappush, siftdownAux, h]

theorem heappush_three (lt : α → α → Bool) (a b c x : α) :
    heappush lt [a, b, c] x =
      if lt x b then
        if lt x a then [x, a, c, b] else [a, x, c, b]
      else [a, b, c, x] := by
  by_cases h : lt x b <;> by_cases h2 : lt x a <;>
    simp [heappush, siftdownAux, h, h2]

theorem heappop_nil (lt : α → α → Bool) : heappop lt ([] : List α) = none := by
  simp [heappop]

theorem heappop_one (lt : α → α → Bool) (a : α) : heappop lt [a] = some (a, []) := by
  simp [heappop]

theorem heappop_two (lt : α → α → Bool) (a b : α) :
    heappop lt [a, b] = some (a, [b]) := by
  simp [heappop, siftup, siftupAux, siftdownAux]

theorem heappop_three (lt : α → α → Bool) (a b c : α) :
    heappop lt [a, b, c] = some (a, if lt c b then [c, b] else [b, c]) := by
  by_cases h : lt c b <;>
    simp [heappop, siftup, siftupAux, siftdownAux, h]

theorem heappop_four (lt : α → α → Bool) (a b c d : α) :
    heappop lt [a, b, c, d] =
      some (a,
        if lt b c then
          if lt d b then [d, b, c] else [b, d, c]
        else
          if lt d c then [d, b, c] else [c, b, d]) := by
  by_cases h : lt b c <;> by_cases h2 : lt d b <;> by_cases h3 : lt d c <;>
    simp [heappop, siftup, siftupAux, siftdownAux, h, h2, h3]

theorem siftdownAux_length (lt : α → α → Bool) (newitem : α) (startpos : Nat) :
    ∀ (pos : Nat) (heap : List α),
      (siftdownAux lt newitem startpos heap pos).length = heap.length := by
  intro pos
  induction pos using Nat.strong_induction_on with
  | _ pos ih =>
    intro heap
    rw [siftdownAux]
    split
    · dsimp only
      rcases hget : heap.get? ((pos - 1) / 2) with _ | parent
      · simp
      · dsimp only
        split
        · rw [ih _ (by have := Nat.div_le_self (pos - 1) 2; omega)]
          simp
        · simp
    · simp

theorem heappush_length (lt : α → α → Bool) (heap : List α) (x : α) :
    (heappush lt heap x).length = heap.length + 1 := by
  rw [heappush, siftdownAux_length]
  simp

/-! ## Claims about mailbox ordering (C1, C2) -/

/-- A convenient abbreviation: the bus state after a plain send (general
type, no timeout, no reply reference). -/
def MessageBus.sendP (bus : MessageBus) (sender recipient content : String)
    (priority : MessagePriority) : Option Nat × MessageBus :=
  bus.send_message sender recipient content "general" priority none none

/-- Claim C1: for every registered recipient with an empty mailbox on a bus
whose capacity admits three messages, sending three messages with
priorities LOW, URGENT, NORMAL (in that order), with no other sends or
receives intervening, makes three successive `receive_message` calls yield
the URGENT message first, then the NORMAL one, then the LOW one. -/
theorem mailbox_priority_order_low_urgent_normal
    (bus : MessageBus) (r s1 s2 s3 c1 c2 c3 : String)
    (hq : bus.queues r = some [])
    (hcap : bus.max_queue_size = 0 ∨ 3 ≤ bus.max_queue_size) :
    (let b1 := (bus.sendP s1 r c1 MessagePriority.LOW).2
     let b2 := (b1.sendP s2 r c2 MessagePriority.URGENT).2
     let b3 := (b2.sendP s3 r c3 MessagePriority.NORMAL).2
     let p1 := b3.receive_message r
     let p2 := p1.2.receive_message r
     let p3 := p2.2.receive_message r
     p1.1.map Message.priority = some MessagePriority.URGENT ∧
     p1.1.map Message.content = some c2 ∧
     p2.1.map Message.priority = some MessagePriority.NORMAL ∧
     p2.1.map Message.content = some c3 ∧
     p3.1.map Message.priority = some MessagePriority.LOW ∧
     p3.1.map Message.content = some c1) := by
  have h0 : ¬ queueFull bus.max_queue_size ([] : List Message) := by
    unfold queueFull; simp; omega
  have h1 : ∀ x : Message, ¬ queueFull bus.max_queue_size [x] := by
    intro x; unfold queueFull; simp; omega
  have h2 : ∀ x y : Message, ¬ queueFull bus.max_queue_size [x, y] := by
    intro x y; unfold queueFull; simp; omega
  simp [MessageBus.sendP, MessageBus.send_message, MessageBus.receive_message,
    hq, h0, h1, h2, heappush_nil, heappush_one, heappush_two, heappop_one,
    heappop_two, heappop_three, Message.ltb, MessagePriority.value]

/-- Witness for C1 at a concrete bus (capacity 1000, one registered
recipient `"r"`). -/
theorem mailbox_priority_order_low_urgent_normal_witness :
    (let bus := ((MessageBus.init 1000).register_agent "r").2
     let b1 := (bus.sendP "s" "r" "lo" MessagePriority.LOW).2
     let b2 := (b1.sendP "s" "r" "ur" MessagePriority.URGENT).2
     let b3 := (b2.sendP "s" "r" "no" MessagePriority.NORMAL).2
     let p1 := b3.receive_message "r"
     let p2 := p1.2.receive_message "r"
     let p3 := p2.2.receive_message "r"
     p1.1.map Message.priority = some MessagePriority.URGENT ∧
     p1.1.map Message.content = some "ur" ∧
     p2.1.map Message.priority = some MessagePriority.NORMAL ∧
     p2.1.map Message.content = some "no" ∧
     p3.1.map Message.priority = some MessagePriority.LOW ∧
     p3.1.map Message.content = some "lo") :=
  mailbox_priority_order_low_urgent_normal
    ((MessageBus.init 1000).register_agent "r").2 "r" "s" "s" "s" "lo" "ur" "no"
    (by simp [MessageBus.init, MessageBus.register_agent])
    (Or.inr (by simp [MessageBus.init, MessageBus.register_agent]))

/-- Counterexample to claim C2: on a fresh bus with recipient `"r"`, four
equal-priority (NORMAL) messages sent in the order `"a" "b" "c" "d"` are
received in the order `"a" "c" "b" "d"` — the third message overtakes the
second, so equal-priority delivery is not the stable FIFO order claimed. -/
theorem equal_priority_not_fifo_counterexample :
    (let bus := ((MessageBus.init 1000).register_agent "r").2
     let b1 := (bus.sendP "s" "r" "a" MessagePriority.NORMAL).2
     let b2 := (b1.sendP "s" "r" "b" MessagePriority.NORMAL).2
     let b3 := (b2.sendP "s" "r" "c" MessagePriority.NORMAL).2
     let b4 := (b3.sendP "s" "r" "d" MessagePriority.NORMAL).2
     let p1 := b4.receive_message "r"
     let p2 := p1.2.receive_message "r"
     let p3 := p2.2.receive_message "r"
     let p4 := p3.2.receive_message "r"
     [p1.1.map Message.content, p2.1.map Message.content,
      p3.1.map Message.content, p4.1.map Message.content] =
       [some "a", some "c", some "b", some "d"]) ∧
    ("c" : String) ≠ "b" := by
  refine ⟨?_, by decide⟩
  simp [MessageBus.init, MessageBus.register_agent, MessageBus.sendP,
    MessageBus.send_message, MessageBus.receive_message, queueFull,
    heappush_nil, heappush_one, heappush_two, heappush_three, heappop_one,
    heappop_two, heappop_three, heappop_four, Message.ltb,
    MessagePriority.value]

/-- Amended claim C2: equal-priority delivery follows the binary-heap pop
order, which agrees with the send order while at most three messages are
involved: three equal-priority sends into an empty mailbox are received in
exactly their send order.  (For four or more, FIFO can fail, as the
counterexample shows.) -/
theorem equal_priority_fifo_up_to_three
    (bus : MessageBus) (r s1 s2 s3 c1 c2 c3 : String) (p : MessagePriority)
    (hq : bus.queues r = some [])
    (hcap : bus.max_queue_size = 0 ∨ 3 ≤ bus.max_queue_size) :
    (let b1 := (bus.sendP s1 r c1 p).2
     let b2 := (b1.sendP s2 r c2 p).2
     let b3 := (b2.sendP s3 r c3 p).2
     let p1 := b3.receive_message r
     let p2 := p1.2.receive_message r
     let p3 := p2.2.receive_message r
     p1.1.map Message.content = some c1 ∧
     p2.1.map Message.content = some c2 ∧
     p3.1.map Message.content = some c3) := by
  have h0 : ¬ queueFull bus.max_queue_size ([] : List Message) := by
    unfold queueFull; simp; omega
  have h1 : ∀ x : Message, ¬ queueFull bus.max_queue_size [x] := by
    intro x; unfold queueFull; simp; omega
  have h2 : ∀ x y : Message, ¬ queueFull bus.max_queue_size [x, y] := by
    intro x y; unfold queueFull; simp; omega
  simp [MessageBus.sendP, MessageBus.send_message, MessageBus.receive_message,
    hq, h0, h1, h2, heappush_nil, heappush_one, heappush_two, heappop_one,
    heappop_two, heappop_three, Message.ltb, MessagePriority.value]

/-- Witness for the amended C2 on a concrete bus. -/
theorem equal_priority_fifo_up_to_three_witness :
    (let bus := ((MessageBus.init 1000).register_agent "r").2
     let b1 := (bus.sendP "s" "r" "a" MessagePriority.NORMAL).2
     let b2 := (b1.sendP "s" "r" "b" MessagePriority.NORMAL).2
     let b3 := (b2.sendP "s" "r" "c" MessagePriority.NORMAL).2
     let p1 := b3.receive_message "r"
     let p2 := p1.2.receive_message "r"
     let p3 := p2.2.receive_message "r"
     p1.1.map Message.content = some "a" ∧
     p2.1.map Message.content = some "b" ∧
     p3.1.map Message.content = some "c") :=
  equal_priority_fifo_up_to_three
    ((MessageBus.init 1000).register_agent "r").2 "r" "s" "s" "s" "a" "b" "c"
    MessagePriority.NORMAL
    (by simp [MessageBus.init, MessageBus.register_agent])
    (Or.inr (by simp [MessageBus.init, MessageBus.register_agent]))

/-! ## Claims about capacity and registration (C3, C6, C9) -/

/-- One send request (sender, content, type, priority) aimed at a fixed
recipient. -/
structure SendReq where
  sender : String
  content : String
  message_type : String
  priority : MessagePriority

/-- Run a sequence of sends to the fixed recipient `r`, discarding the
returned ids (as the claim's scenario does). -/
def sendSeq (bus : MessageBus) (r : String) : List SendReq → MessageBus
  | [] => bus
  | req :: rest =>
    sendSeq
      ((bus.send_message req.sender r req.content req.message_type
        req.priority none none).2) r rest

/-- `send_message` never changes the capacity. -/
theorem send_message_max (bus : MessageBus) (s r c t : String)
    (p : MessagePriority) (ti to1 : Option Nat) :
    (bus.send_message s r c t p ti to1).2.max_queue_size =
      bus.max_queue_size := by
  rw [MessageBus.send_message]
  rcases hq : bus.queues r with _ | q
  · rfl
  · dsimp only
    split <;> rfl

/-- The queue of a registered recipient after a send to it: unchanged when
full, one `heappush` richer otherwise. -/
theorem send_message_queues_self (bus : MessageBus) (s r c t : String)
    (p : MessagePriority) (q : List Message)
    (hq : bus.queues r = some q) :
    (queueFull bus.max_queue_size q →
      (bus.send_message s r c t p none none).2.queues r = some q) ∧
    (¬ queueFull bus.max_queue_size q →
      (bus.send_message s r c t p none none).2.queues r =
        some (heappush Message.ltb q
          { id := bus.message_counter + 1, sender := s, recipient := r,
            content := c, message_type := t, priority := p, timeout := none,
            status := MessageStatus.PENDING, response_to := none })) := by
  constructor
  · intro hfull
    simp [MessageBus.send_message, hq, hfull]
  · intro hfull
    simp [MessageBus.send_message, hq, hfull]

/-- After any number of sends to a registered recipient of a bounded bus,
the recipient's queue length is `min (initial + number of sends) capacity`
(and the capacity itself never changes). -/
theorem sendSeq_queue_length (r : String) (reqs : List SendReq) :
    ∀ (bus : MessageBus) (q : List Message),
      bus.queues r = some q → 0 < bus.max_queue_size →
      q.length ≤ bus.max_queue_size →
      (sendSeq bus r reqs).max_queue_size = bus.max_queue_size ∧
      ∃ q', (sendSeq bus r reqs).queues r = some q' ∧
        q'.length = min (q.length + reqs.length) bus.max_queue_size := by
  induction reqs with
  | nil =>
    intro bus q hq hpos hle
    exact ⟨rfl, q, hq, by simp only [List.length_nil]; omega⟩
  | cons req rest ih =>
    intro bus q hq hpos hle
    rw [sendSeq]
    have hmax := send_message_max bus req.sender r req.content
      req.message_type req.priority none none
    by_cases hfull : queueFull bus.max_queue_size q
    · have hq2 := (send_message_queues_self bus req.sender r req.content
        req.message_type req.priority q hq).1 hfull
      obtain ⟨hm, q', hq', hlen⟩ := ih _ q hq2 (hmax ▸ hpos) (hmax ▸ hle)
      rw [hmax] at hm hlen
      refine ⟨hm, q', hq', ?_⟩
      have := hfull.2
      omega
    · have hq2 := (send_message_queues_self bus req.sender r req.content
        req.message_type req.priority q hq).2 hfull
      have hlt : q.length < bus.max_queue_size := by
        unfold queueFull at hfull
        omega
      obtain ⟨hm, q', hq', hlen⟩ := ih _ _ hq2
        (hmax ▸ hpos) (by rw [heappush_length, hmax]; omega)
      rw [hmax] at hm hlen
      rw [heappush_length] at hlen
      refine ⟨hm, q', hq', ?_⟩
      simp only [List.length_cons]
      omega

/-- Claim C3: on a bounded bus, for a registered recipient (whose mailbox
respects the bound), a sequence of `max_queue_size` sends followed by one
more send: the last send returns no id, and after every prefix of the
whole sequence `get_pending_count` is at most `max_queue_size`. -/
theorem send_over_capacity_rejected
    (bus : MessageBus) (r : String) (q0 : List Message)
    (reqs : List SendReq) (lastreq : SendReq)
    (hq : bus.queues r = some q0)
    (hpos : 0 < bus.max_queue_size)
    (hlen0 : q0.length ≤ bus.max_queue_size)
    (hn : reqs.length = bus.max_queue_size) :
    ((sendSeq bus r reqs).send_message lastreq.sender r lastreq.content
      lastreq.message_type lastreq.priority none none).1 = none ∧
    ∀ k, (sendSeq bus r ((reqs ++ [lastreq]).take k)).get_pending_count r ≤
      (bus.max_queue_size : Int) := by
  constructor
  · obtain ⟨hm, q', hq', hlen⟩ := sendSeq_queue_length r reqs bus q0 hq hpos hlen0
    have hfull : queueFull (sendSeq bus r reqs).max_queue_size q' := by
      unfold queueFull
      rw [hm, hlen]
      omega
    simp [MessageBus.send_message, hq', hfull]
  · intro k
    obtain ⟨hm, q', hq', hlen⟩ :=
      sendSeq_queue_length r ((reqs ++ [lastreq]).take k) bus q0 hq hpos hlen0
    rw [MessageBus.get_pending_count, hq']
    simp only [hlen]
    omega

/-- Witness for C3 on a concrete bus of capacity 2: three sends, the last
one rejected, pending count bounded throughout. -/
theorem send_over_capacity_rejected_witness :
    (0 : Nat) < 2 ∧
    (let bus := ((MessageBus.init 2).register_agent "r").2
     let reqs := [SendReq.mk "s" "a" "general" MessagePriority.NORMAL,
                  SendReq.mk "s" "b" "general" MessagePriority.NORMAL]
     let lastreq := SendReq.mk "s" "z" "general" MessagePriority.NORMAL
     ((sendSeq bus "r" reqs).send_message lastreq.sender "r" lastreq.content
       lastreq.message_type lastreq.priority none none).1 = none ∧
     ∀ k, (sendSeq bus "r" ((reqs ++ [lastreq]).take k)).get_pending_count "r" ≤
       ((2 : Nat) : Int)) := by
  constructor
  · decide
  · exact send_over_capacity_rejected
      ((MessageBus.init 2).register_agent "r").2 "r" [] _ _
      (by simp [MessageBus.init, MessageBus.register_agent])
      (by simp [MessageBus.init, MessageBus.register_agent])
      (by simp)
      (by simp [MessageBus.init, MessageBus.register_agent])

/-- A bus-level operation (the operations that can run between an
unregistration and a later send, none of which re-registers an id). -/
inductive BusOp
  | send : String → String → String → String → MessagePriority → BusOp
  | receive : String → BusOp

/-- Run a sequence of bus operations, discarding results. -/
def runOps (bus : MessageBus) : List BusOp → MessageBus
  | [] => bus
  | BusOp.send s r c t p :: rest =>
    runOps ((bus.send_message s r c t p none none).2) rest
  | BusOp.receive a :: rest =>
    runOps ((bus.receive_message a).2) rest

/-- `send_message` never creates a mailbox: an unregistered id stays
unregistered. -/
theorem send_message_preserves_unregistered (bus : MessageBus)
    (s r c t : String) (p : MessagePriority) (a : String)
    (ha : bus.queues a = none) :
    (bus.send_message s r c t p none none).2.queues a = none := by
  rcases hq : bus.queues r with _ | q
  · simp [MessageBus.send_message, hq, ha]
  · have hne : a ≠ r := fun he => by rw [he, hq] at ha; cases ha
    by_cases hfull : queueFull bus.max_queue_size q <;>
      simp [MessageBus.send_message, hq, hfull, hne, ha]

/-- `receive_message` never creates a mailbox either. -/
theorem receive_message_preserves_unregistered (bus : MessageBus)
    (b a : String) (ha : bus.queues a = none) :
    (bus.receive_message b).2.queues a = none := by
  rcases hq : bus.queues b with _ | q
  · simp [MessageBus.receive_message, hq, ha]
  · have hne : a ≠ b := fun he => by rw [he, hq] at ha; cases ha
    rcases hp : heappop Message.ltb q with _ | m2 <;>
      simp [MessageBus.receive_message, hq, hp, hne, ha]

/-- No sequence of sends and receives creates a mailbox. -/
theorem runOps_preserves_unregistered (a : String) (ops : List BusOp) :
    ∀ bus : MessageBus, bus.queues a = none →
      (runOps bus ops).queues a = none := by
  induction ops with
  | nil => intro bus ha; exact ha
  | cons op rest ih =>
    intro bus ha
    cases op with
    | send s r c t p =>
      exact ih _ (send_message_preserves_unregistered bus s r c t p a ha)
    | receive b =>
      exact ih _ (receive_message_preserves_unregistered bus b a ha)

/-- Unregistration removes the mailbox whether or not it existed. -/
theorem unregister_agent_queues_none (bus : MessageBus) (a : String) :
    (bus.unregister_agent a).2.queues a = none := by
  rcases hq : bus.queues a with _ | q <;>
    simp [MessageBus.unregister_agent, hq]

/-- Claim C6: after `unregister_agent`, `get_pending_count` for that id is
the not-found sentinel `-1`, and every subsequent send naming that id as
recipient — after any further sequence of sends/receives, none of which
registers it again — returns no id. -/
theorem unregistered_pending_sentinel_and_send_none
    (bus : MessageBus) (a : String) :
    (let bus1 := (bus.unregister_agent a).2
     bus1.get_pending_count a = -1 ∧
     ∀ (ops : List BusOp) (s c t : String) (p : MessagePriority),
       ((runOps bus1 ops).send_message s a c t p none none).1 = none) := by
  have h1 := unregister_agent_queues_none bus a
  refine ⟨?_, ?_⟩
  · rw [MessageBus.get_pending_count, h1]
  · intro ops s c t p
    have h2 := runOps_preserves_unregistered a ops _ h1
    rw [MessageBus.send_message, h2]

/-- Claim C9, first part: a send to a registered recipient always advances
the internal message counter; when the mailbox is full it returns no id
and leaves the global history and `total_sent` unchanged; when not full it
returns the id `message_counter + 1`.  Second part: the counter never
decreases across any sequence of bus operations — so the ids assigned to
successful sends are strictly increasing, with gaps exactly at the failed
sends. -/
theorem failed_send_records_nothing_but_advances_counter :
    (∀ (bus : MessageBus) (s r c t : String) (p : MessagePriority)
        (q : List Message),
      bus.queues r = some q →
      (let res := bus.send_message s r c t p none none
       res.2.message_counter = bus.message_counter + 1 ∧
       (queueFull bus.max_queue_size q →
         res.1 = none ∧ res.2.history = bus.history ∧
         res.2.total_sent = bus.total_sent) ∧
       (¬ queueFull bus.max_queue_size q →
         res.1 = some (bus.message_counter + 1)))) ∧
    (∀ (bus : MessageBus) (ops : List BusOp),
      bus.message_counter ≤ (runOps bus ops).message_counter) := by
  constructor
  · intro bus s r c t p q hq
    refine ⟨?_, ?_, ?_⟩
    · by_cases hfull : queueFull bus.max_queue_size q <;>
        simp [MessageBus.send_message, hq, hfull]
    · intro hfull
      simp [MessageBus.send_message, hq, hfull]
    · intro hfull
      simp [MessageBus.send_message, hq, hfull]
  · have hsend : ∀ (bus : MessageBus) (s r c t : String) (p : MessagePriority),
        bus.message_counter ≤
          (bus.send_message s r c t p none none).2.message_counter := by
      intro bus s r c t p
      rcases hq : bus.queues r with _ | q
      · simp [MessageBus.send_message, hq]
      · by_cases hfull : queueFull bus.max_queue_size q <;>
          simp [MessageBus.send_message, hq, hfull]
    have hrecv : ∀ (bus : MessageBus) (b : String),
        bus.message_counter ≤ (bus.receive_message b).2.message_counter := by
      intro bus b
      rcases hq : bus.queues b with _ | q
      · simp [MessageBus.receive_message, hq]
      · rcases hp : heappop Message.ltb q with _ | m2 <;>
          simp [MessageBus.receive_message, hq, hp]
    intro bus ops
    induction ops generalizing bus with
    | nil => exact Nat.le_refl _
    | cons op rest ih =>
      cases op with
      | send s r c t p => exact Nat.le_trans (hsend bus s r c t p) (ih _)
      | receive b => exact Nat.le_trans (hrecv bus b) (ih _)

/-- Witness for C9 at a concrete capacity-1 bus whose single mailbox is
full: the hypothesis holds, the second send fails yet advances the
counter. -/
theorem failed_send_records_nothing_witness :
    (let bus1 := ((((MessageBus.init 1).register_agent "r").2).sendP
        "s" "r" "x" MessagePriority.NORMAL).2
     ∃ q : List Message,
       bus1.queues "r" = some q ∧
       (let res := bus1.send_message "s" "r" "y" "general"
          MessagePriority.NORMAL none none
        res.2.message_counter = bus1.message_counter + 1 ∧
        (queueFull bus1.max_queue_size q →
          res.1 = none ∧ res.2.history = bus1.history ∧
          res.2.total_sent = bus1.total_sent) ∧
        (¬ queueFull bus1.max_queue_size q →
          res.1 = some (bus1.message_counter + 1))) ∧
       queueFull bus1.max_queue_size q) := by
  refine ⟨[{ id := 1, sender := "s", recipient := "r", content := "x",
             message_type := "general", priority := MessagePriority.NORMAL,
             timeout := none, status := MessageStatus.PENDING,
             response_to := none }], ?_, ?_, ?_⟩
  · simp [MessageBus.init, MessageBus.register_agent, MessageBus.sendP,
      MessageBus.send_message, queueFull, heappush_nil]
  · exact failed_send_records_nothing_but_advances_counter.1
      _ "s" "r" "y" "general" MessagePriority.NORMAL _
      (by simp [MessageBus.init, MessageBus.register_agent, MessageBus.sendP,
        MessageBus.send_message, queueFull, heappush_nil])
  · constructor
    · simp [MessageBus.init, MessageBus.register_agent, MessageBus.sendP,
        MessageBus.send_message, queueFull]
    · rw [MessageBus.sendP, send_message_max]
      simp [MessageBus.init, MessageBus.register_agent]

/-! ## `runtime/tool_registry.py` and the Python value model -/

/-- The fragment of Python runtime values the interpreter stores and
converts (floats and arbitrary objects are outside the modelled fragment;
no claim mentions them).  `list` is the list-of-tool-names value produced
by the derived `tools` property. -/
inductive PyValue
  | str : String → PyValue
  | int : Int → PyValue
  | bool : Bool → PyValue
  | pynone : PyValue
  | list : List String → PyValue
deriving DecidableEq, Repr

/-- The Python exception kinds the modelled code distinguishes:
`RuntimeError` (tool-access/read-only-property violations), `NameError`
(unknown/disabled tool in the registry), an exception raised inside a
tool's own `execute` body, and `InterpreterError`. -/
inductive PyErr
  | RuntimeError : String → PyErr
  | NameError : String → PyErr
  | ToolError : String → PyErr
  | InterpError : String → PyErr
  | AttributeError : String → PyErr
  | TypeError : String → PyErr
deriving DecidableEq, Repr

/-- A tool capability: anything exposing `execute`.  Stdlib tool classes
are constructed with no arguments (or an empty agents list), so a class
and the instance it constructs behave identically; both are modelled by
the `execute` behaviour, which may return a value or raise. -/
structure ToolFn where
  execute : List PyValue → Except String PyValue

/-- `ToolMetadata` dataclass (`registered_at` omitted: wall-clock only,
unused by every claim).  `last_used` is a clock tick, `none` until first
use. -/
structure ToolMetadata where
  name : String
  tool_class : ToolFn
  description : String
  version : String
  author : String
  tags : List String
  usage_count : Nat
  last_used : Option Nat
  enabled : Bool

/-- `ToolRegistry` state: the catalog and the lazy instance cache.
The plugin name set is omitted (no claim mentions plugins). -/
structure ToolRegistry where
  tools : String → Option ToolMetadata
  instances : String → Option ToolFn

/-- A registry with an empty catalog.  (The source constructor then
auto-registers the stdlib tools through `register_tool`; the claims
quantify over arbitrary registry states, which covers that.) -/
def ToolRegistry.empty : ToolRegistry :=
  { tools := fun _ => none, instances := fun _ => none }

/-- `ToolRegistry.register_tool`.  The `issubclass` guard always passes in
the model (every `ToolFn` is a capability); `description or f"{name}
tool"` is Python truthiness on the string. -/
def ToolRegistry.register_tool (reg : ToolRegistry) (name : String)
    (tool_class : ToolFn) (description version author : String)
    (tags : List String) : Bool × ToolRegistry :=
  match reg.tools name with
  | some _ => (false, reg)
  | none =>
    let desc := if description = "" then name ++ " tool" else description
    (true, { reg with
      tools := fun k =>
        if k = name then
          some { name := name, tool_class := tool_class, description := desc,
                 version := version, author := author, tags := tags,
                 usage_count := 0, last_used := none, enabled := true }
        else reg.tools k })

/-- `ToolRegistry.get_tool_instance`: cached instance, else lazily
construct one (the source inspects the constructor signature only to pick
construction arguments; every branch constructs an instance of
`metadata.tool_class`, which the model represents by the capability
itself).  Returns `none` if the name is unknown, or uncached and
disabled. -/
def ToolRegistry.get_tool_instance (reg : ToolRegistry) (name : String) :
    Option ToolFn × ToolRegistry :=
  match reg.tools name with
  | none => (none, reg)
  | some md =>
    match reg.instances name with
    | some inst => (some inst, reg)
    | none =>
      if md.enabled = false then (none, reg)
      else
        (some md.tool_class,
          { reg with instances := fun k =>
            if k = name then some md.tool_class else reg.instances k })

/-- `ToolRegistry.execute_tool`: resolve the instance (raising `NameError`
when that fails), then — before invoking the tool — increment
`usage_count` and stamp `last_used`, then invoke `execute`, whose own
exception (if any) propagates after the statistics update. -/
def ToolRegistry.execute_tool (reg : ToolRegistry) (name : String)
    (args : List PyValue) (now : Nat) :
    Except PyErr PyValue × ToolRegistry :=
  match ToolRegistry.get_tool_instance reg name with
  | (none, reg1) =>
    (Except.error (PyErr.NameError ("Tool " ++ name ++ " not found or disabled")),
      reg1)
  | (some inst, reg1) =>
    let bump : ToolMetadata → ToolMetadata := fun md =>
      { md with usage_count := md.usage_count + 1, last_used := some now }
    let reg2 := { reg1 with tools := fun k =>
      if k = name then (reg1.tools k).map bump else reg1.tools k }
    ((inst.execute args).mapError PyErr.ToolError, reg2)

/-- `ToolRegistry.is_tool_available`. -/
def ToolRegistry.is_tool_available (reg : ToolRegistry) (name : String) :
    Bool :=
  match reg.tools name with
  | none => false
  | some md => md.enabled

/-- Instance resolution never touches the catalog. -/
theorem get_tool_instance_tools (reg : ToolRegistry) (name : String) :
    (ToolRegistry.get_tool_instance reg name).2.tools = reg.tools := by
  rw [ToolRegistry.get_tool_instance]
  rcases hm : reg.tools name with _ | md
  · rfl
  · dsimp only
    rcases hi : reg.instances name with _ | inst
    · dsimp only
      split <;> rfl
    · rfl

/-- Counterexample to claim C5: register a tool whose `execute` always
raises; `execute_tool` propagates the error, yet `usage_count` has become
1 and `last_used` is stamped — not left unchanged as claimed. -/
theorem usage_count_incremented_on_failure_counterexample :
    (let boom : ToolFn := ⟨fun _ => Except.error "boom"⟩
     let reg := (ToolRegistry.empty.register_tool "Boom" boom "" "1.0.0"
       "unknown" []).2
     let res := reg.execute_tool "Boom" [] 7
     (∃ e, res.1 = Except.error e) ∧
     (res.2.tools "Boom").map ToolMetadata.usage_count = some 1 ∧
     (res.2.tools "Boom").map ToolMetadata.last_used = some (some 7)) ∧
    (1 : Nat) ≠ 0 := by
  refine ⟨⟨⟨PyErr.ToolError "boom", ?_⟩, ?_, ?_⟩, by decide⟩ <;>
    simp [ToolRegistry.empty, ToolRegistry.register_tool,
      ToolRegistry.get_tool_instance, ToolRegistry.execute_tool,
      Except.mapError]

/-- Amended claim C5: `execute_tool` raises `NameError` when the instance
does not resolve (name unknown, or uncached and disabled) and then leaves
every tool's statistics unchanged; when the instance resolves it
increments the tool's `usage_count` and stamps `last_used` *before*
invoking the tool, so the statistics are updated whether or not the
tool's own `execute` raises, and the tool's result or error is returned
as-is. -/
theorem registry_counts_usage_on_resolution (reg : ToolRegistry)
    (name : String) (args : List PyValue) (now : Nat) :
    (reg.tools name = none →
      (ToolRegistry.get_tool_instance reg name).1 = none) ∧
    (∀ md, reg.tools name = some md → md.enabled = false →
      reg.instances name = none →
      (ToolRegistry.get_tool_instance reg name).1 = none) ∧
    ((ToolRegistry.get_tool_instance reg name).1 = none →
      (reg.execute_tool name args now).1 =
        Except.error (PyErr.NameError ("Tool " ++ name ++ " not found or disabled")) ∧
      (reg.execute_tool name args now).2.tools = reg.tools) ∧
    (∀ inst md, (ToolRegistry.get_tool_instance reg name).1 = some inst →
      reg.tools name = some md →
      (reg.execute_tool name args now).1 =
        (inst.execute args).mapError PyErr.ToolError ∧
      (reg.execute_tool name args now).2.tools name =
        some { md with usage_count := md.usage_count + 1
                       last_used := some now }) := by
  refine ⟨?_, ?_, ?_, ?_⟩
  · intro hm
    simp [ToolRegistry.get_tool_instance, hm]
  · intro md hm hdis hi
    simp [ToolRegistry.get_tool_instance, hm, hi, hdis]
  · intro hres
    rw [ToolRegistry.execute_tool]
    rcases hg : ToolRegistry.get_tool_instance reg name with ⟨r1, reg1⟩
    rw [hg] at hres
    subst hres
    have ht : reg1.tools = reg.tools := by
      have := get_tool_instance_tools reg name
      rw [hg] at this
      exact this
    exact ⟨rfl, ht⟩
  · intro inst md hres hm
    rw [ToolRegistry.execute_tool]
    rcases hg : ToolRegistry.get_tool_instance reg name with ⟨r1, reg1⟩
    rw [hg] at hres
    subst hres
    have ht : reg1.tools = reg.tools := by
      have := get_tool_instance_tools reg name
      rw [hg] at this
      exact this
    refine ⟨rfl, ?_⟩
    simp [ht, hm]

/-- Witness for the amended C5, covering both a resolving tool (whose
`execute` raises) and an unknown name. -/
theorem registry_counts_usage_on_resolution_witness :
    (let boom : ToolFn := ⟨fun _ => Except.error "boom"⟩
     let reg := (ToolRegistry.empty.register_tool "Boom" boom "" "1.0.0"
       "unknown" []).2
     ((reg.execute_tool "Boom" [] 7).1 =
        ((⟨fun _ => Except.error "boom"⟩ : ToolFn).execute []).mapError
          PyErr.ToolError ∧
      ∃ md, (reg.execute_tool "Boom" [] 7).2.tools "Boom" = some md ∧
        md.usage_count = 1 ∧ md.last_used = some 7) ∧
     (reg.execute_tool "Missing" [] 7).1 =
       Except.error (PyErr.NameError "Tool Missing not found or disabled")) := by
  constructor
  · have h := (registry_counts_usage_on_resolution
      ((ToolRegistry.empty.register_tool "Boom"
        ⟨fun _ => Except.error "boom"⟩ "" "1.0.0" "unknown" []).2)
      "Boom" [] 7).2.2.2
      ⟨fun _ => Except.error "boom"⟩
      { name := "Boom", tool_class := ⟨fun _ => Except.error "boom"⟩
        description := "Boom tool", version := "1.0.0", author := "unknown"
        tags := [], usage_count := 0, last_used := none, enabled := true }
      (by simp [ToolRegistry.empty, ToolRegistry.register_tool,
        ToolRegistry.get_tool_instance])
      (by simp [ToolRegistry.empty, ToolRegistry.register_tool])
    exact ⟨h.1, _, h.2, rfl, rfl⟩
  · exact ((registry_counts_usage_on_resolution
      ((ToolRegistry.empty.register_tool "Boom"
        ⟨fun _ => Except.error "boom"⟩ "" "1.0.0" "unknown" []).2)
      "Missing" [] 7).2.2.1
      (by simp [ToolRegistry.empty, ToolRegistry.register_tool,
        ToolRegistry.get_tool_instance])).1

/-! ## `core/interpreter.py`: the agent entity (`AgentVal`) -/

/-- Python `str.lower` / substring membership, used by the mock response
generation in `ask`: needle-is-a-prefix over character lists. -/
def hasPre : List Char → List Char → Bool
  | _, [] => true
  | [], _ :: _ => false
  | a :: as, b :: bs => a == b && hasPre as bs

/-- Python `needle in hay` over character lists. -/
def hasSub : List Char → List Char → Bool
  | [], needle => needle.isEmpty
  | hay@(_ :: rest), needle => hasPre hay needle || hasSub rest needle

/-- Python `pat in hay` on strings. -/
def strContains (hay pat : String) : Bool :=
  hasSub hay.toList pat.toList

/-- Python `str(value)` on the modelled value fragment (list-of-strings
repr uses CPython quoting). -/
def pyStr : PyValue → String
  | PyValue.str s => s
  | PyValue.int n => toString n
  | PyValue.bool b => if b then "True" else "False"
  | PyValue.pynone => "None"
  | PyValue.list xs =>
    "[" ++ String.intercalate ", " (xs.map fun x => "\x27" ++ x ++ "\x27") ++ "]"

/-- One record of the agent's local backup `message_queue` (the dict with
message/timestamp/sender/message_id; the wall-clock timestamp is
omitted). -/
structure BackupEntry where
  message : String
  sender : String
  message_id : Option Nat
deriving DecidableEq, Repr

/-- `AgentVal` state.  `assigned_tools` is an insertion-ordered Python
dict, modelled as an association list; `processing_running` models
"the background thread exists and is alive".  `_tool_registry` and
`_message_bus` are the ambient singletons, passed explicitly to each
operation. -/
structure AgentState where
  name : String
  model : String
  status : String
  properties : String → Option PyValue
  assigned_tools : List (String × ToolFn)
  message_queue : List BackupEntry
  processing_running : Bool
  agent_id : String

/-- `AgentVal.get_property`: reserved names first, then the free-form
property map (Python `dict.get` returns `None` when absent). -/
def AgentVal.get_property (a : AgentState) (name : String) : PyValue :=
  if name = "status" then PyValue.str a.status
  else if name = "model" then PyValue.str a.model
  else if name = "name" then PyValue.str a.name
  else if name = "tools" then PyValue.list (a.assigned_tools.map Prod.fst)
  else
    match a.properties name with
    | some v => v
    | none => PyValue.pynone

/-- `AgentVal.ask`: save the status, set it to `"processing"`, compute the
mock response (keyed on lowercase substring matches), log the request and
response through the bus, and restore the saved status in the `finally`
block.  The `timeout` parameter is unused by the source body and omitted;
the `time.sleep` calls are timing-only. -/
def AgentVal.ask (a : AgentState) (bus : MessageBus) (message : String) :
    String × AgentState × MessageBus :=
  let old_status := a.status
  let a1 := { a with status := "processing" }
  let low := message.toLower
  let response :=
    if strContains low "error" then "Error handling: " ++ message
    else if strContains low "status" then
      "Agent " ++ a.name ++ " status: " ++ old_status
    else if strContains low "hello" then "Hello from " ++ a.name ++ "!"
    else if strContains low "busy" then
      "Agent " ++ a.name ++ " was busy but processed: " ++ message
    else "Agent " ++ a.name ++ " processed: " ++ message
  let bus1 := (bus.send_message "system" a.agent_id ("ASK: " ++ message)
    "ask_request" MessagePriority.NORMAL none none).2
  let bus2 := (bus1.send_message a.agent_id "system"
    ("RESPONSE: " ++ response) "ask_response" MessagePriority.NORMAL none none).2
  (response, { a1 with status := old_status }, bus2)

/-- `AgentVal.tell`: send a `"tell"`-typed message to self (enqueue
failure is absorbed) and append to the local backup log. -/
def AgentVal.tell (a : AgentState) (bus : MessageBus) (message : String) :
    AgentState × MessageBus :=
  let res := bus.send_message "system" a.agent_id message "tell"
    MessagePriority.NORMAL none none
  ({ a with message_queue := a.message_queue ++
      [{ message := message, sender := "system", message_id := res.1 }] },
    res.2)

/-- `AgentVal.has_tool`: locally assigned, or available and enabled in the
registry. -/
def AgentVal.has_tool (a : AgentState) (reg : ToolRegistry)
    (tool_name : String) : Bool :=
  (a.assigned_tools.lookup tool_name).isSome ||
    reg.is_tool_available tool_name

/-- `AgentVal.execute_tool`: `RuntimeError` before any status change when
`has_tool` fails; otherwise save the status, set `"using_tool"`, execute
through the local assignment or the registry, log a `tool_usage` message
only on success (an exception skips the logging send), and restore the
saved status in the `finally` block. -/
def AgentVal.execute_tool (a : AgentState) (bus : MessageBus)
    (reg : ToolRegistry) (tool_name : String) (args : List PyValue)
    (now : Nat) :
    Except PyErr PyValue × AgentState × MessageBus × ToolRegistry :=
  if AgentVal.has_tool a reg tool_name = false then
    (Except.error (PyErr.RuntimeError ("Agent " ++ a.name ++
      " does not have access to tool \x27" ++ tool_name ++ "\x27")),
      a, bus, reg)
  else
    let old_status := a.status
    let a1 := { a with status := "using_tool" }
    let resreg : Except PyErr PyValue × ToolRegistry :=
      match a.assigned_tools.lookup tool_name with
      | some inst => ((inst.execute args).mapError PyErr.ToolError, reg)
      | none => reg.execute_tool tool_name args now
    let bus1 :=
      match resreg.1 with
      | Except.ok v =>
        (bus.send_message a.agent_id "system"
          ("TOOL_EXECUTION: " ++ tool_name ++ " -> " ++ pyStr v)
          "tool_usage" MessagePriority.NORMAL none none).2
      | Except.error _ => bus
    (resreg.1, { a1 with status := old_status }, bus1, resreg.2)

/-- `AgentVal.stop_background_processing`: `False` when no live thread,
otherwise signal and join (modelled by clearing the running flag). -/
def AgentVal.stop_background_processing (a : AgentState) :
    Bool × AgentState :=
  if a.processing_running = false then (false, a)
  else (true, { a with processing_running := false })

/-- `AgentVal.cleanup`: stop the background loop if running, then
unregister from the bus. -/
def AgentVal.cleanup (a : AgentState) (bus : MessageBus) :
    AgentState × MessageBus :=
  let s1 := AgentVal.stop_background_processing a
  ((s1.2), (bus.unregister_agent a.agent_id).2)

/-- Claim C4: `ask` and `execute_tool` always leave the agent's status
exactly as it was before the call, whether they return a value or an
error. -/
theorem ask_and_execute_tool_preserve_status :
    (∀ (a : AgentState) (bus : MessageBus) (m : String),
      (AgentVal.ask a bus m).2.1.status = a.status) ∧
    (∀ (a : AgentState) (bus : MessageBus) (reg : ToolRegistry)
        (t : String) (args : List PyValue) (now : Nat),
      (AgentVal.execute_tool a bus reg t args now).2.1.status = a.status) := by
  constructor
  · intro a bus m
    rfl
  · intro a bus reg t args now
    rw [AgentVal.execute_tool]
    split <;> rfl

/-- Claim C8: `cleanup` is idempotent as a state transformer — so in
particular a second call changes nothing and signals nothing — and after
the first call the agent's id has no mailbox on the bus (it is absent from
the registered set).  `cleanup` is built from total operations
(`stop_background_processing` and `unregister_agent` return booleans
rather than raising), so no call can raise. -/
theorem cleanup_idempotent_and_unregisters (a : AgentState)
    (bus : MessageBus) :
    (let c1 := AgentVal.cleanup a bus
     AgentVal.cleanup c1.1 c1.2 = c1 ∧
     c1.2.queues a.agent_id = none) := by
  refine ⟨?_, unregister_agent_queues_none bus a.agent_id⟩
  have h1 : (AgentVal.stop_background_processing a).2.processing_running =
      false := by
    rw [AgentVal.stop_background_processing]
    split
    · next h => exact h
    · rfl
  have h2 : (AgentVal.stop_background_processing a).2.agent_id =
      a.agent_id := by
    rw [AgentVal.stop_background_processing]
    split <;> rfl
  have h3 : ∀ b : AgentState, b.processing_running = false →
      (AgentVal.stop_background_processing b).2 = b := by
    intro b hb
    rw [AgentVal.stop_background_processing, if_pos hb]
  have h4 : ∀ (bus2 : MessageBus) (anid : String),
      bus2.queues anid = none → (bus2.unregister_agent anid).2 = bus2 := by
    intro bus2 anid hq
    rw [MessageBus.unregister_agent, hq]
  show AgentVal.cleanup ((AgentVal.stop_background_processing a).2)
      ((bus.unregister_agent a.agent_id).2) =
    ((AgentVal.stop_background_processing a).2,
      (bus.unregister_agent a.agent_id).2)
  rw [AgentVal.cleanup]
  rw [h3 _ h1, h2, h4 _ _ (unregister_agent_queues_none bus a.agent_id)]

/-! ## `core/interpreter.py`: expression evaluation (C7, C10 fragment)

The modelled fragment covers the expression forms the claims exercise:
literals, identifiers, property access and method calls.  Boolean/
comparison expressions are outside the fragment (no claim mentions them).
In the source, `globals` holds the `AgentVal` object itself; the model
holds a reference key into an agent heap so that mutation through a
method call is shared, exactly as Python object aliasing is. -/

/-- `AgenticScriptValue` variants.  `RawVal` is a Python object returned
as-is by property access when it is neither `str`, `int`/`float` nor
`bool` (a list or `None`). -/
inductive RtVal
  | StringVal : String → RtVal
  | NumberVal : Int → RtVal
  | BooleanVal : Bool → RtVal
  | AgentRef : String → RtVal
  | RawVal : PyValue → RtVal
deriving DecidableEq, Repr

/-- The expression node shapes of the modelled fragment (`ast_nodes.py`:
`StringValue`, `NumberValue`, `BooleanValue`, `Identifier`,
`PropertyAccess`, `MethodCall`; number literals restricted to integers,
and comparison/boolean expressions outside the fragment). -/
inductive Expr
  | StringValue : String → Expr
  | NumberValue : Int → Expr
  | BooleanValue : Bool → Expr
  | Identifier : String → Expr
  | PropertyAccess : String → String → Expr
  | MethodCall : String → String → List Expr → Expr

/-- Interpreter state: the two-tier environment plus the runtime
singletons (registry, bus) and the clock tick for `datetime.now`.
`vars` is the source's `variables` dict (renamed: `variables` is a
reserved word in Lean); `heap` carries the live `AgentVal` objects, keyed
by the reference held in `globals`. -/
structure InterpState where
  globals : String → Option RtVal
  vars : String → Option RtVal
  heap : String → Option AgentState
  bus : MessageBus
  reg : ToolRegistry
  now : Nat

/-- Python attribute read `v.value` on an `AgenticScriptValue`:
`StringVal`/`NumberVal`/`BooleanVal` expose `.value`; an `AgentVal` or a
raw object has no such attribute and raises `AttributeError`. -/
def RtVal.dotValue : RtVal → Except PyErr PyValue
  | RtVal.StringVal s => Except.ok (PyValue.str s)
  | RtVal.NumberVal n => Except.ok (PyValue.int n)
  | RtVal.BooleanVal b => Except.ok (PyValue.bool b)
  | RtVal.AgentRef _ => Except.error (PyErr.AttributeError "value")
  | RtVal.RawVal _ => Except.error (PyErr.AttributeError "value")

/-- Python `isinstance(v, str)`. -/
def pyIsStr : PyValue → Bool
  | PyValue.str _ => true
  | _ => false

/-- Python `isinstance(v, (int, float))`.  In Python `bool` is a subclass
of `int`, so a boolean satisfies this check — the source's conversion
order makes this the branch that captures boolean property values. -/
def pyIsIntFloat : PyValue → Bool
  | PyValue.int _ => true
  | PyValue.bool _ => true
  | _ => false

/-- Python `isinstance(v, bool)`. -/
def pyIsBool : PyValue → Bool
  | PyValue.bool _ => true
  | _ => false

/-- The string payload of a value known to satisfy `isinstance(v, str)`. -/
def PyValue.asStr : PyValue → String
  | PyValue.str s => s
  | _ => ""

/-- The numeric payload of a value known to satisfy
`isinstance(v, (int, float))`; Python `True == 1` and `False == 0`. -/
def PyValue.asNum : PyValue → Int
  | PyValue.int n => n
  | PyValue.bool b => if b then 1 else 0
  | _ => 0

/-- The boolean payload of a value known to satisfy
`isinstance(v, bool)`. -/
def PyValue.asBool : PyValue → Bool
  | PyValue.bool b => b
  | _ => false

/-- The `isinstance` chain of `evaluate_property_access` (source lines
673–682), in source order: `str` first, then `(int, float)` — which also
captures booleans — then the unreachable `bool` branch, else the raw
object. -/
def convertPropValue (pv : PyValue) : RtVal :=
  if pyIsStr pv then RtVal.StringVal pv.asStr
  else if pyIsIntFloat pv then RtVal.NumberVal pv.asNum
  else if pyIsBool pv then RtVal.BooleanVal pv.asBool
  else RtVal.RawVal pv

/-- `evaluate_property_access`: the object is looked up in `globals` only,
must be an `AgentVal`, and the property value is converted through the
`isinstance` chain.  (A dangling heap reference cannot arise in the
source, where the value is the object.) -/
def evaluate_property_access (st : InterpState) (obj prop : String) :
    Except PyErr RtVal × InterpState :=
  match st.globals obj with
  | none =>
    (Except.error (PyErr.InterpError ("Undefined variable: " ++ obj)), st)
  | some v =>
    match v with
    | RtVal.AgentRef rid =>
      match st.heap rid with
      | none =>
        (Except.error (PyErr.InterpError "dangling agent reference"), st)
      | some a =>
        (Except.ok (convertPropValue (AgentVal.get_property a prop)), st)
    | _ =>
      (Except.error (PyErr.InterpError ("Object \x27" ++ obj ++
        "\x27 does not support property access")), st)

/-- The `.value` reads of the extra `ask` argument and of
`execute_tool`'s tool arguments (`[arg.value for arg in args[1:]]`):
collect them, propagating an `AttributeError`. -/
def dotValues : List RtVal → Except PyErr (List PyValue)
  | [] => Except.ok []
  | v :: rest =>
    match v.dotValue with
    | Except.error e => Except.error e
    | Except.ok pv =>
      match dotValues rest with
      | Except.error e => Except.error e
      | Except.ok pvs => Except.ok (pv :: pvs)

/-- The agent-method dispatch of `evaluate_method_call` (source lines
700–744), applied after the arguments have been evaluated: the four
operations with their arity checks, plus the unknown-method error.
Contents that the source would pass to string operations are required to
be strings (every claim uses string arguments). -/
def dispatchAgentMethod (st : InterpState) (rid obj method : String)
    (args : List RtVal) : Except PyErr RtVal × InterpState :=
  match st.heap rid with
  | none => (Except.error (PyErr.InterpError "dangling agent reference"), st)
  | some a =>
    if method = "ask" then
      match args with
      | [] =>
        (Except.error (PyErr.InterpError
          "ask() requires at least 1 argument: message"), st)
      | a0 :: rest =>
        match a0.dotValue with
        | Except.error e => (Except.error e, st)
        | Except.ok m0 =>
          match dotValues rest with
          | Except.error e => (Except.error e, st)
          | Except.ok _ =>
            match m0 with
            | PyValue.str message =>
              let r := AgentVal.ask a st.bus message
              (Except.ok (RtVal.StringVal r.1),
                { st with
                  heap := fun k => if k = rid then some r.2.1 else st.heap k
                  bus := r.2.2 })
            | _ =>
              (Except.error (PyErr.TypeError
                "non-string message outside modelled fragment"), st)
    else if method = "tell" then
      match args with
      | [] =>
        (Except.error (PyErr.InterpError
          "tell() requires 1 argument: message"), st)
      | a0 :: _ =>
        match a0.dotValue with
        | Except.error e => (Except.error e, st)
        | Except.ok (PyValue.str message) =>
          let r := AgentVal.tell a st.bus message
          (Except.ok (RtVal.StringVal "message sent"),
            { st with
              heap := fun k => if k = rid then some r.1 else st.heap k
              bus := r.2 })
        | Except.ok _ =>
          (Except.error (PyErr.TypeError
            "non-string message outside modelled fragment"), st)
    else if method = "has_tool" then
      match args with
      | [] =>
        (Except.error (PyErr.InterpError
          "has_tool() requires 1 argument: tool_name"), st)
      | a0 :: _ =>
        match a0.dotValue with
        | Except.error e => (Except.error e, st)
        | Except.ok (PyValue.str tn) =>
          (Except.ok (RtVal.BooleanVal (AgentVal.has_tool a st.reg tn)), st)
        | Except.ok _ =>
          (Except.error (PyErr.TypeError
            "non-string tool name outside modelled fragment"), st)
    else if method = "execute_tool" then
      match args with
      | [] =>
        (Except.error (PyErr.InterpError
          "execute_tool() requires at least 1 argument: tool_name"), st)
      | a0 :: rest =>
        match a0.dotValue with
        | Except.error e => (Except.error e, st)
        | Except.ok (PyValue.str tn) =>
          match dotValues rest with
          | Except.error e => (Except.error e, st)
          | Except.ok targs =>
            let r := AgentVal.execute_tool a st.bus st.reg tn targs st.now
            let st1 :=
              { st with
                heap := fun k => if k = rid then some r.2.1 else st.heap k
                bus := r.2.2.1
                reg := r.2.2.2 }
            match r.1 with
            | Except.ok v => (Except.ok (RtVal.StringVal (pyStr v)), st1)
            | Except.error (PyErr.RuntimeError msg) =>
              (Except.error (PyErr.InterpError msg), st1)
            | Except.error e => (Except.error e, st1)
        | Except.ok _ =>
          (Except.error (PyErr.TypeError
            "non-string tool name outside modelled fragment"), st)
    else
      (Except.error (PyErr.InterpError ("Unknown method \x27" ++ method ++
        "\x27 on agent")), st)

mutual

/-- `evaluate_expression` on the modelled expression fragment. -/
def evalExpr (st : InterpState) : Expr → Except PyErr RtVal × InterpState
  | Expr.StringValue s => (Except.ok (RtVal.StringVal s), st)
  | Expr.NumberValue n => (Except.ok (RtVal.NumberVal n), st)
  | Expr.BooleanValue b => (Except.ok (RtVal.BooleanVal b), st)
  | Expr.Identifier x =>
    match st.vars x with
    | some v => (Except.ok v, st)
    | none =>
      match st.globals x with
      | some v => (Except.ok v, st)
      | none =>
        (Except.error (PyErr.InterpError ("Undefined variable: " ++ x)), st)
  | Expr.PropertyAccess o p => evaluate_property_access st o p
  | Expr.MethodCall o m es => evaluate_method_call st o m es

/-- `evaluate_method_call`: look up the object in `globals`, require an
`AgentVal`, evaluate the arguments left to right, then dispatch. -/
def evaluate_method_call (st : InterpState) (obj method : String)
    (argEs : List Expr) : Except PyErr RtVal × InterpState :=
  match st.globals obj with
  | none =>
    (Except.error (PyErr.InterpError ("Undefined variable: " ++ obj)), st)
  | some v =>
    match v with
    | RtVal.AgentRef rid =>
      match evalArgs st argEs with
      | (Except.error e, st1) => (Except.error e, st1)
      | (Except.ok args, st1) => dispatchAgentMethod st1 rid obj method args
    | _ =>
      (Except.error (PyErr.InterpError ("Object \x27" ++ obj ++
        "\x27 does not support method calls")), st)

/-- The list comprehension
`args = [self.evaluate_expression(arg) for arg in expr.arguments]`. -/
def evalArgs (st : InterpState) :
    List Expr → Except PyErr (List RtVal) × InterpState
  | [] => (Except.ok [], st)
  | e :: rest =>
    match evalExpr st e with
    | (Except.error err, st1) => (Except.error err, st1)
    | (Except.ok v, st1) =>
      match evalArgs st1 rest with
      | (Except.error err, st2) => (Except.error err, st2)
      | (Except.ok vs, st2) => (Except.ok (v :: vs), st2)

end

/-- Evaluating a list of string literals yields the corresponding string
values and leaves the state unchanged. -/
theorem evalArgs_string_literals (xs : List String) :
    ∀ st : InterpState, evalArgs st (xs.map Expr.StringValue) =
      (Except.ok (xs.map RtVal.StringVal), st) := by
  induction xs with
  | nil => intro st; simp [evalArgs]
  | cons x rest ih =>
    intro st
    simp [evalArgs, evalExpr, ih]

/-- Claim C10: reading an agent property whose stored value is a boolean
yields a `NumberVal` (Python `isinstance(True, int)` holds and the
`(int, float)` branch precedes the `bool` branch), never a
`BooleanVal`. -/
theorem bool_property_reads_as_number (st : InterpState)
    (o p rid : String) (a : AgentState) (b : Bool)
    (ho : st.globals o = some (RtVal.AgentRef rid))
    (ha : st.heap rid = some a)
    (h1 : p ≠ "status") (h2 : p ≠ "model") (h3 : p ≠ "name")
    (h4 : p ≠ "tools")
    (hp : a.properties p = some (PyValue.bool b)) :
    evaluate_property_access st o p =
      (Except.ok (RtVal.NumberVal (if b then 1 else 0)), st) ∧
    ∀ c : Bool, (evaluate_property_access st o p).1 ≠
      Except.ok (RtVal.BooleanVal c) := by
  have he : evaluate_property_access st o p =
      (Except.ok (RtVal.NumberVal (if b then 1 else 0)), st) := by
    rw [evaluate_property_access, ho]
    simp [ha, AgentVal.get_property, h1, h2, h3, h4, hp, convertPropValue,
      pyIsStr, pyIsIntFloat, PyValue.asNum]
  refine ⟨he, ?_⟩
  intro c
  rw [he]
  cases b <;> simp

/-- A concrete agent holding the boolean property `flag := True`. -/
def flagAgent : AgentState :=
  { name := "a", model := "m", status := "idle",
    properties := fun k =>
      if k = "flag" then some (PyValue.bool true) else none,
    assigned_tools := [], message_queue := [],
    processing_running := false, agent_id := "aid" }

/-- A concrete interpreter state binding `a` to `flagAgent`. -/
def flagState : InterpState :=
  { globals := fun k =>
      if k = "a" then some (RtVal.AgentRef "aid") else none,
    vars := fun _ => none,
    heap := fun k => if k = "aid" then some flagAgent else none,
    bus := MessageBus.init 1000, reg := ToolRegistry.empty, now := 0 }

/-- Witness for C10: accessing `a.flag` on the concrete state yields
`NumberVal 1`, never a `BooleanVal`. -/
theorem bool_property_reads_as_number_witness :
    evaluate_property_access flagState "a" "flag" =
      (Except.ok (RtVal.NumberVal (if true then 1 else 0)), flagState) ∧
    ∀ c : Bool, (evaluate_property_access flagState "a" "flag").1 ≠
      Except.ok (RtVal.BooleanVal c) :=
  bool_property_reads_as_number flagState "a" "flag" "aid" flagAgent true
    (by simp [flagState]) (by simp [flagState])
    (by decide) (by decide) (by decide) (by decide)
    (by simp [flagAgent])

/-- A concrete agent with no properties or tools. -/
def plainAgent : AgentState :=
  { name := "a", model := "m", status := "idle",
    properties := fun _ => none, assigned_tools := [],
    message_queue := [], processing_running := false, agent_id := "aid" }

/-- A concrete interpreter state binding `a` to `plainAgent`. -/
def plainState : InterpState :=
  { globals := fun k =>
      if k = "a" then some (RtVal.AgentRef "aid") else none,
    vars := fun _ => none,
    heap := fun k => if k = "aid" then some plainAgent else none,
    bus := MessageBus.init 1000, reg := ToolRegistry.empty, now := 0 }

/-- Counterexample to claim C7: `tell` called with two arguments does not
fail with an arity error — the extra argument is ignored and the call
returns `"message sent"` (the source checks `len(args) < 1`, not
`len(args) != 1`). -/
theorem tell_two_args_no_arity_error_counterexample :
    (evaluate_method_call plainState "a" "tell"
       [Expr.StringValue "x", Expr.StringValue "y"]).1 =
      Except.ok (RtVal.StringVal "message sent") ∧
    (2 : Nat) ≠ 1 := by
  refine ⟨?_, by decide⟩
  have hargs := evalArgs_string_literals ["x", "y"] plainState
  simp only [List.map_cons, List.map_nil, plainState, plainAgent] at hargs
  rw [evaluate_method_call.eq_def]
  simp [plainState, hargs, dispatchAgentMethod, RtVal.dotValue,
    AgentVal.tell, plainAgent]

/-- Amended claim C7: each of the four agent methods checks only
`len(args) < 1`: with zero arguments each fails with its arity
`InterpreterError`; `tell` does not reject extra arguments — with one or
more (string) arguments it succeeds, ignoring all but the first. -/
theorem method_call_arity_checks (st : InterpState) (o rid : String)
    (a : AgentState)
    (ho : st.globals o = some (RtVal.AgentRef rid))
    (ha : st.heap rid = some a) :
    (evaluate_method_call st o "ask" []).1 =
      Except.error (PyErr.InterpError
        "ask() requires at least 1 argument: message") ∧
    (evaluate_method_call st o "tell" []).1 =
      Except.error (PyErr.InterpError
        "tell() requires 1 argument: message") ∧
    (evaluate_method_call st o "has_tool" []).1 =
      Except.error (PyErr.InterpError
        "has_tool() requires 1 argument: tool_name") ∧
    (evaluate_method_call st o "execute_tool" []).1 =
      Except.error (PyErr.InterpError
        "execute_tool() requires at least 1 argument: tool_name") ∧
    (∀ (s1 : String) (more : List String),
      (evaluate_method_call st o "tell"
        (Expr.StringValue s1 :: more.map Expr.StringValue)).1 =
        Except.ok (RtVal.StringVal "message sent")) := by
  refine ⟨?_, ?_, ?_, ?_, ?_⟩
  · rw [evaluate_method_call.eq_def, ho]
    simp [evalArgs, dispatchAgentMethod, ha]
  · rw [evaluate_method_call.eq_def, ho]
    simp [evalArgs, dispatchAgentMethod, ha]
  · rw [evaluate_method_call.eq_def, ho]
    simp [evalArgs, dispatchAgentMethod, ha]
  · rw [evaluate_method_call.eq_def, ho]
    simp [evalArgs, dispatchAgentMethod, ha]
  · intro s1 more
    have hargs := evalArgs_string_literals (s1 :: more) st
    rw [evaluate_method_call.eq_def, ho]
    simp only [List.map_cons] at hargs
    simp [hargs, dispatchAgentMethod, ha, RtVal.dotValue, AgentVal.tell]

/-- Witness for the amended C7 at the concrete state `plainState`. -/
theorem method_call_arity_checks_witness :
    (evaluate_method_call plainState "a" "ask" []).1 =
      Except.error (PyErr.InterpError
        "ask() requires at least 1 argument: message") ∧
    (evaluate_method_call plainState "a" "tell" []).1 =
      Except.error (PyErr.InterpError
        "tell() requires 1 argument: message") ∧
    (evaluate_method_call plainState "a" "has_tool" []).1 =
      Except.error (PyErr.InterpError
        "has_tool() requires 1 argument: tool_name") ∧
    (evaluate_method_call plainState "a" "execute_tool" []).1 =
      Except.error (PyErr.InterpError
        "execute_tool() requires at least 1 argument: tool_name") ∧
    (∀ (s1 : String) (more : List String),
      (evaluate_method_call plainState "a" "tell"
        (Expr.StringValue s1 :: more.map Expr.StringValue)).1 =
        Except.ok (RtVal.StringVal "message sent")) :=
  method_call_arity_checks plainState "a" "aid" plainAgent
    (by simp [plainState]) (by simp [plainState])

end AgenticScript

